import Mathlib

/-!
Shallow embedding of the tic-tac-toe history exercise
(`src/exercises/06.tic-tac-toe/03.problem.history/index.tsx`).

The component's state transitions are embedded as pure functions on a
`GameState` record.  The helpers imported from `#shared/tic-tac-toe-utils`
(`calculateWinner`, `calculateNextValue`, `isValidGameState`) are not part of
the sources; they are modelled from the spec and marked as such.
-/

/-- A board marker.  The spec calls these markerA and markerB; the code stores
the strings "X" and "O" (markerA = "X", markerB = "O"). -/
inductive Marker where
  | X : Marker
  | O : Marker
deriving DecidableEq, Repr

/-- One board cell: `none` models the JS `null` (empty), `some m` a marker.
A board snapshot (`Squares` in the code) is the ordered list of cells. -/
abbrev Squares := List (Option Marker)

/-- The `GameState` of the exercise: a history of board snapshots plus the
cursor `currentStep` indexing into it.  `currentStep` is a JS number in the
code; reachable and validated states keep it a nonnegative integer, so it is
embedded as `Nat` (the untyped decoder below rejects negative numbers). -/
structure GameState where
  history : List Squares
  currentStep : Nat
deriving DecidableEq, Repr

/-- The `defaultState` of the source: `{ history: [Array(9).fill(null)],
currentStep: 0 }`. -/
def defaultState : GameState :=
  { history := [List.replicate 9 none], currentStep := 0 }

/-- The snapshot the UI displays: `state.history[state.currentStep]`.
Out-of-range access yields JS `undefined`; embedded as the default `[]`,
which no in-range theorem relies on. -/
def currentSquares (state : GameState) : Squares :=
  state.history.getD state.currentStep []

/-- Modelled from the spec: `calculateNextValue` of
`#shared/tic-tac-toe-utils` (missing from the sources) — "alternates based on
count of filled cells (even count → markerA, odd → markerB)". -/
def calculateNextValue (squares : Squares) : Marker :=
  if (squares.filter Option.isSome).length % 2 = 0 then Marker.X else Marker.O

/-- The eight winning lines of the 3×3 board: 3 rows, 3 columns, 2
diagonals. -/
def winningLines : List (Nat × Nat × Nat) :=
  [(0, 1, 2), (3, 4, 5), (6, 7, 8), (0, 3, 6), (1, 4, 7), (2, 5, 8),
   (0, 4, 8), (2, 4, 6)]

/-- The winner contributed by one line, if its three cells hold equal
non-empty markers. -/
def lineWinner (squares : Squares) (l : Nat × Nat × Nat) : Option Marker :=
  match squares.getD l.1 none with
  | none => none
  | some m =>
    if squares.getD l.2.1 none = some m ∧ squares.getD l.2.2 none = some m then
      some m
    else none

/-- Modelled from the spec: `calculateWinner` of `#shared/tic-tac-toe-utils`
(missing from the sources) — "checks all 8 lines (3 rows, 3 columns, 2
diagonals) for three equal non-empty markers". -/
def calculateWinner (squares : Squares) : Option Marker :=
  winningLines.findSome? (lineWinner squares)

/-- Models `Array.prototype.with` for a nonnegative index: copies the list with
position `i` replaced, and errors (`none`, modelling the JS `RangeError`)
when `i` is out of range. -/
def arrayWith (xs : List α) (i : Nat) (a : α) : Option (List α) :=
  if i < xs.length then some (xs.set i a) else none

/-- The `selectSquare` handler of the source, as a pure transition.  `some state2` is
the state after the click (including the no-op guard case); `none` models the
uncaught `RangeError` of `.with` on an out-of-range index.

Source:
```
if (winner || state.history[state.currentStep][index]) return
setState(previousState => {
  const { currentStep, history } = previousState
  const newHistory = history.slice(0, currentStep + 1)
  const squares = history[currentStep].with(index, nextValue)
  return { history: [...newHistory, squares], currentStep: newHistory.length }
})
```
where `winner = calculateWinner(state.history[state.currentStep])` and
`nextValue = calculateNextValue(state.history[state.currentStep])`. -/
def selectSquare (state : GameState) (index : Nat) : Option GameState :=
  if (calculateWinner (state.history.getD state.currentStep [])).isSome ||
      ((state.history.getD state.currentStep []).getD index none).isSome then
    some state
  else
    match arrayWith (state.history.getD state.currentStep []) index
        (some (calculateNextValue (state.history.getD state.currentStep []))) with
    | none => none
    | some squares =>
      some { history := state.history.take (state.currentStep + 1) ++ [squares],
             currentStep := (state.history.take (state.currentStep + 1)).length }

/-- The move-list button handler from the source:
`setState(previousState => ({ ...previousState, currentStep: step }))`. -/
def jumpToStep (state : GameState) (step : Nat) : GameState :=
  { state with currentStep := step }

/-- The `restart` handler of the source: `setState(defaultState)`. -/
def restart (_state : GameState) : GameState :=
  defaultState

/-- Modelled from the spec: `isValidGameState` of `#shared/tic-tac-toe-utils`
(missing from the sources) — "structural validation … must have history as
non-empty sequence of valid 9-cell snapshots, currentStep in range" — as a
predicate on already-typed states. -/
def isValidGameState (state : GameState) : Bool :=
  !state.history.isEmpty &&
    state.history.all (fun squares => squares.length == 9) &&
    state.currentStep < state.history.length

/-- The structural invariant named by the spec for `GameState` itself:
history non-empty and `currentStep` in range. -/
def inv (state : GameState) : Bool :=
  !state.history.isEmpty && state.currentStep < state.history.length

/-- JSON values, as produced by `JSON.parse` (objects as association
lists; numbers restricted to the integers this program stores). -/
inductive Json where
  | null : Json
  | str : String → Json
  | num : Int → Json
  | arr : List Json → Json
  | obj : List (String × Json) → Json
  | other : Json

/-- Serialization of a cell by `JSON.stringify`: `null`, `"X"` or `"O"`. -/
def encodeCell : Option Marker → Json
  | none => Json.null
  | some Marker.X => Json.str "X"
  | some Marker.O => Json.str "O"

/-- Serialization `JSON.stringify(state)`: the object
`{history: Array<Array<marker|null>>, currentStep: number}` of the spec. -/
def encodeGameState (state : GameState) : Json :=
  Json.obj
    [("history", Json.arr (state.history.map (fun sq => Json.arr (sq.map encodeCell)))),
     ("currentStep", Json.num state.currentStep)]

/-- Validating map over a list: `some` of all results when every element
decodes, `none` as soon as one fails. -/
def decodeAll (f : α → Option β) : List α → Option (List β)
  | [] => some []
  | a :: rest =>
    match f a, decodeAll f rest with
    | some b, some bs => some (b :: bs)
    | _, _ => none

/-- A persisted cell is `null`, `"X"` or `"O"`. -/
def decodeCell : Json → Option (Option Marker)
  | Json.null => some none
  | Json.str s => if s = "X" then some (some Marker.X)
      else if s = "O" then some (some Marker.O) else none
  | _ => none

/-- A persisted snapshot is an array of exactly 9 valid cells. -/
def decodeSquares (j : Json) : Option Squares :=
  match j with
  | Json.arr cells =>
    match decodeAll decodeCell cells with
    | some sq => if sq.length == 9 then some sq else none
    | none => none
  | _ => none

/-- A persisted history is an array of valid snapshots. -/
def decodeHistory (j : Json) : Option (List Squares) :=
  match j with
  | Json.arr rows => decodeAll decodeSquares rows
  | _ => none

/-- Modelled from the spec: acceptance of a parsed persisted value, i.e. the
shape check `isValidGameState` of `#shared/tic-tac-toe-utils` (missing from
the sources) applied to the untyped `JSON.parse` result — "must have history
as non-empty sequence of valid 9-cell snapshots, currentStep in range" —
returning the typed state it accepts. -/
def decodeGameState (j : Json) : Option GameState :=
  match j with
  | Json.obj fields =>
    match fields.lookup "history", fields.lookup "currentStep" with
    | some hj, some (Json.num n) =>
      match decodeHistory hj with
      | some hist =>
        if hist.isEmpty then none
        else if 0 ≤ n ∧ n < (hist.length : Int) then
          some { history := hist, currentStep := n.toNat }
        else none
      | none => none
    | _, _ => none
  | _ => none

/-- The `useState` initializer from the source: `none` models a
`JSON.parse` exception (caught → default); `some j` a successfully parsed
value, used only when accepted by the validator.  An absent slot reaches this
as `some Json.null` (`JSON.parse(getItem(key) ?? 'null')`). -/
def loadInitialState : Option Json → GameState
  | none => defaultState
  | some j =>
    match decodeGameState j with
    | some state => state
    | none => defaultState

/-- The spec's successive-snapshot relation: `b` differs from `a` in exactly
one cell, which changes from empty to a marker.  Stated equivalently as: for
some in-range position `i` that is empty in `a`, `b` is `a` with position `i`
set to a marker (a `set` changes only position `i`, and there it changes
`none` into `some`). -/
def stepDiffOk (a b : Squares) : Bool :=
  (List.range a.length).any fun i =>
    decide (a.getD i none = none) &&
      (decide (b = a.set i (some Marker.X)) || decide (b = a.set i (some Marker.O)))

/-- The spec's history invariant: every snapshot differs from its predecessor
by exactly one cell filled in. -/
def histOk : List Squares → Bool
  | [] => true
  | [_] => true
  | a :: b :: rest => stepDiffOk a b && histOk (b :: rest)

/-- A structurally valid persisted blob whose two snapshots are both empty:
it passes the shape validation yet violates the one-cell-difference history
invariant. -/
def twinEmptyJson : Json :=
  Json.obj
    [("history", Json.arr [Json.arr (List.replicate 9 Json.null),
                           Json.arr (List.replicate 9 Json.null)]),
     ("currentStep", Json.num 0)]

/-- The typed state `twinEmptyJson` decodes to. -/
def twinEmptyState : GameState :=
  { history := [List.replicate 9 none, List.replicate 9 none], currentStep := 0 }

/-- The states reachable through the component: the default state, and
closure under `selectSquare` (when it does not crash), the move-list buttons
(whose `step` always indexes into `history`), and `restart`. -/
inductive Reachable : GameState → Prop where
  | base : Reachable defaultState
  | advance (s s2 : GameState) (i : Nat) :
      Reachable s → selectSquare s i = some s2 → Reachable s2
  | jump (s : GameState) (step : Nat) :
      Reachable s → step < s.history.length → Reachable (jumpToStep s step)
  | reset (s : GameState) : Reachable s → Reachable (restart s)

/-! ## Helper lemmas -/

lemma getD_eq_get (l : List α) (n : Nat) (d : α) (h : n < l.length) :
    l.getD n d = l.get ⟨n, h⟩ := by
  rw [List.getD_eq_getElem?_getD, List.getElem?_eq_getElem h]
  rfl

lemma getD_mem (l : List α) (n : Nat) (d : α) (h : n < l.length) :
    l.getD n d ∈ l := by
  rw [getD_eq_get l n d h]
  exact l.get_mem _ _

lemma isValid_parts (s : GameState) (hv : isValidGameState s = true) :
    s.history ≠ [] ∧ (∀ sq ∈ s.history, sq.length = 9) ∧
      s.currentStep < s.history.length := by
  simp only [isValidGameState, Bool.and_eq_true, Bool.not_eq_true',
    List.isEmpty_eq_false_iff_exists_mem, List.all_eq_true, beq_iff_eq,
    decide_eq_true_eq] at hv
  rcases hv with ⟨⟨h1, h2⟩, h3⟩
  refine ⟨?_, h2, h3⟩
  intro hnil
  simp [hnil] at h1

lemma currentSquares_length (s : GameState) (hv : isValidGameState s = true) :
    (currentSquares s).length = 9 := by
  obtain ⟨-, h9, hstep⟩ := isValid_parts s hv
  exact h9 _ (getD_mem s.history s.currentStep [] hstep)

lemma selectSquare_guard_eq (s : GameState) (i : Nat)
    (h : ((calculateWinner (currentSquares s)).isSome ||
          ((currentSquares s).getD i none).isSome) = true) :
    selectSquare s i = some s := by
  simp only [currentSquares] at h
  simp only [selectSquare]
  rw [if_pos h]

lemma selectSquare_advance_eq (s : GameState) (i : Nat)
    (hstep : s.currentStep < s.history.length)
    (hi : i < (currentSquares s).length)
    (hwin : calculateWinner (currentSquares s) = none)
    (hcell : (currentSquares s).getD i none = none) :
    selectSquare s i =
      some { history := s.history.take (s.currentStep + 1) ++
               [(currentSquares s).set i (some (calculateNextValue (currentSquares s)))],
             currentStep := s.currentStep + 1 } := by
  have hlen : (s.history.take (s.currentStep + 1)).length = s.currentStep + 1 := by
    rw [List.length_take]
    omega
  simp only [currentSquares] at hi hwin hcell ⊢
  have harr : arrayWith (s.history.getD s.currentStep []) i
      (some (calculateNextValue (s.history.getD s.currentStep []))) =
      some ((s.history.getD s.currentStep []).set i
        (some (calculateNextValue (s.history.getD s.currentStep [])))) := by
    unfold arrayWith
    rw [if_pos hi]
  simp only [selectSquare]
  rw [hwin, hcell]
  simp only [Option.isSome_none, Bool.or_self]
  rw [if_neg (by simp)]
  rw [harr]
  simp [hlen]

/-! ## Claim theorems -/

/-- C1: for every game state whose cursor is in range and every board index
that is empty in the current snapshot while no winner exists there,
`selectSquare` truncates the history to indices `[0, currentStep]`, appends
the current snapshot with the index set to the next mover's marker, and sets
`currentStep` to the index of the new last snapshot (the new length is
`currentStep + 2`, so the new cursor `currentStep + 1` is the last index). -/
theorem advanceMove_truncates_appends (s : GameState) (i : Nat)
    (hstep : s.currentStep < s.history.length)
    (hi : i < (currentSquares s).length)
    (hwin : calculateWinner (currentSquares s) = none)
    (hcell : (currentSquares s).getD i none = none) :
    selectSquare s i =
      some { history := s.history.take (s.currentStep + 1) ++
               [(currentSquares s).set i (some (calculateNextValue (currentSquares s)))],
             currentStep := s.currentStep + 1 } ∧
    (s.history.take (s.currentStep + 1) ++
      [(currentSquares s).set i (some (calculateNextValue (currentSquares s)))]).length =
      s.currentStep + 1 + 1 := by
  refine ⟨selectSquare_advance_eq s i hstep hi hwin hcell, ?_⟩
  rw [List.length_append, List.length_take]
  simp
  omega

/-- Witness for C1 at the default state and the center square. -/
theorem advanceMove_truncates_appends_witness :
    selectSquare defaultState 4 =
      some { history := defaultState.history.take (defaultState.currentStep + 1) ++
               [(currentSquares defaultState).set 4
                  (some (calculateNextValue (currentSquares defaultState)))],
             currentStep := defaultState.currentStep + 1 } ∧
    (defaultState.history.take (defaultState.currentStep + 1) ++
      [(currentSquares defaultState).set 4
         (some (calculateNextValue (currentSquares defaultState)))]).length =
      defaultState.currentStep + 1 + 1 :=
  advanceMove_truncates_appends defaultState 4 (by decide) (by decide) (by decide)
    (by decide)

/-- C2: when the current snapshot already has a marker at the index, or a
winner already exists in the current snapshot, `selectSquare` returns the
state unchanged. -/
theorem advanceMove_noop_when_blocked (s : GameState) (i : Nat)
    (h : (calculateWinner (currentSquares s)).isSome = true ∨
         ((currentSquares s).getD i none).isSome = true) :
    selectSquare s i = some s :=
  selectSquare_guard_eq s i (by rw [Bool.or_eq_true]; exact h)

/-- Witness for C2: clicking the already-filled square 0. -/
theorem advanceMove_noop_when_blocked_witness :
    selectSquare
      { history := [[some Marker.X, none, none, none, none, none, none, none, none]],
        currentStep := 0 } 0 =
      some { history := [[some Marker.X, none, none, none, none, none, none, none, none]],
             currentStep := 0 } :=
  advanceMove_noop_when_blocked
    { history := [[some Marker.X, none, none, none, none, none, none, none, none]],
      currentStep := 0 } 0 (Or.inr (by decide))

/-- C3: for every in-range step, the move-list button handler sets
`currentStep` to that step and leaves the history unchanged. -/
theorem jumpToStep_sets_cursor_keeps_history (s : GameState) (step : Nat)
    (h : step < s.history.length) :
    (jumpToStep s step).currentStep = step ∧ (jumpToStep s step).history = s.history :=
  ⟨rfl, rfl⟩

/-- Witness for C3 at the default state, step 0. -/
theorem jumpToStep_sets_cursor_keeps_history_witness :
    (jumpToStep defaultState 0).currentStep = 0 ∧
    (jumpToStep defaultState 0).history = defaultState.history :=
  jumpToStep_sets_cursor_keeps_history defaultState 0 (by decide)

/-- C8: from the default state, `selectSquare 4` yields history length 2,
whose snapshot 1 has only the center set to markerA ("X"), and cursor 1. -/
theorem advanceMove_center_example :
    selectSquare defaultState 4 =
      some { history := [List.replicate 9 none,
                         [none, none, none, none, some Marker.X, none, none, none, none]],
             currentStep := 1 } := by
  decide

lemma decode_inv (j : Json) (s : GameState) (h : decodeGameState j = some s) :
    inv s = true := by
  unfold decodeGameState at h
  repeat' split at h
  any_goals cases h
  rename_i hne hcond
  simp only [inv, Bool.and_eq_true, Bool.not_eq_true', decide_eq_true_eq]
  exact ⟨by simpa using hne, by omega⟩

lemma selectSquare_inv (s : GameState) (i : Nat) (s2 : GameState)
    (hs : inv s = true) (h : selectSquare s i = some s2) : inv s2 = true := by
  unfold selectSquare at h
  split at h
  · injection h with h2
    subst h2
    exact hs
  · split at h
    · exact absurd h (by simp)
    · injection h with h2
      subst h2
      simp [inv]

lemma jump_inv (s : GameState) (step : Nat) (hs : inv s = true)
    (hstep : step < s.history.length) : inv (jumpToStep s step) = true := by
  simp only [inv, jumpToStep, Bool.and_eq_true, Bool.not_eq_true',
    decide_eq_true_eq] at hs ⊢
  exact ⟨hs.1, hstep⟩

/-- C4: the default state, every state accepted from persisted data, and the
result of every operation applied to an invariant state keep the history
non-empty with the cursor in range. -/
theorem gameState_cursor_invariant :
    inv defaultState = true ∧
    (∀ j s, decodeGameState j = some s → inv s = true) ∧
    (∀ s i s2, inv s = true → selectSquare s i = some s2 → inv s2 = true) ∧
    (∀ s step, inv s = true → step < s.history.length →
      inv (jumpToStep s step) = true) ∧
    (∀ s, inv s = true → inv (restart s) = true) :=
  ⟨by decide,
   fun j s h => decode_inv j s h,
   fun s i s2 hs h => selectSquare_inv s i s2 hs h,
   fun s step hs hstep => jump_inv s step hs hstep,
   fun _s _hs => (by decide : inv defaultState = true)⟩

/-- Witness for C4: jumping to step 0 from the default state keeps the
invariant. -/
theorem gameState_cursor_invariant_witness : inv (jumpToStep defaultState 0) = true :=
  gameState_cursor_invariant.2.2.2.1 defaultState 0 (by decide) (by decide)

/-- C10: on a structurally valid state (cursor in range, 9-cell snapshots)
and an index in 0..8, `selectSquare` never reaches the out-of-range error
branch of the snapshot update. -/
theorem advanceMove_total_in_range (s : GameState) (i : Nat)
    (hv : isValidGameState s = true) (hi : i < 9) :
    (selectSquare s i).isSome = true := by
  have h9 : (currentSquares s).length = 9 := currentSquares_length s hv
  simp only [currentSquares] at h9
  unfold selectSquare
  split
  · rfl
  · have harr : arrayWith (s.history.getD s.currentStep []) i
        (some (calculateNextValue (s.history.getD s.currentStep []))) =
        some ((s.history.getD s.currentStep []).set i
          (some (calculateNextValue (s.history.getD s.currentStep [])))) := by
      unfold arrayWith
      rw [if_pos]
      rw [h9]
      exact hi
    rw [harr]
    rfl

/-- Witness for C10 at the default state, square 0. -/
theorem advanceMove_total_in_range_witness :
    (selectSquare defaultState 0).isSome = true :=
  advanceMove_total_in_range defaultState 0 (by decide) (by decide)

/-- C9: on a structurally valid state, `selectSquare` changes the state
exactly when the snapshot at `currentStep` has no winner and is empty at the
clicked index; both guards look only at the snapshot at `currentStep`, so
after a jump back they ignore any pruned later snapshots. -/
theorem advanceMove_changes_iff_guard (s : GameState) (i : Nat)
    (hv : isValidGameState s = true) (hi : i < 9) :
    (∃ s2, selectSquare s i = some s2 ∧ s2 ≠ s) ↔
      (calculateWinner (currentSquares s) = none ∧
       (currentSquares s).getD i none = none) := by
  obtain ⟨-, -, hstep⟩ := isValid_parts s hv
  have h9 : (currentSquares s).length = 9 := currentSquares_length s hv
  constructor
  · rintro ⟨s2, hs2, hne2⟩
    by_contra hcon
    rw [not_and_or] at hcon
    have hguard : ((calculateWinner (currentSquares s)).isSome ||
        ((currentSquares s).getD i none).isSome) = true := by
      rw [Bool.or_eq_true]
      rcases hcon with hc | hc
      · exact Or.inl (Option.isSome_iff_ne_none.mpr hc)
      · exact Or.inr (Option.isSome_iff_ne_none.mpr hc)
    rw [selectSquare_guard_eq s i hguard] at hs2
    injection hs2 with hs2
    exact hne2 hs2.symm
  · rintro ⟨hwin, hcell⟩
    refine ⟨_, selectSquare_advance_eq s i hstep (by rw [h9]; exact hi) hwin hcell, ?_⟩
    intro heq
    have hc := congrArg GameState.currentStep heq
    simp at hc

/-- Witness for C9 at the default state, square 0. -/
theorem advanceMove_changes_iff_guard_witness :
    (∃ s2, selectSquare defaultState 0 = some s2 ∧ s2 ≠ defaultState) ↔
      (calculateWinner (currentSquares defaultState) = none ∧
       (currentSquares defaultState).getD 0 none = none) :=
  advanceMove_changes_iff_guard defaultState 0 (by decide) (by decide)

/-- C6: at startup an unparsable blob (`none`), the absent slot (parsed as
JSON `null`) and any parsed-but-invalid value all fall back to the default
state, while a parsed valid value is used as-is. -/
theorem startup_load_fallback :
    loadInitialState none = defaultState ∧
    loadInitialState (some Json.null) = defaultState ∧
    (∀ j, decodeGameState j = none → loadInitialState (some j) = defaultState) ∧
    (∀ j s, decodeGameState j = some s → loadInitialState (some j) = s) := by
  refine ⟨rfl, rfl, ?_, ?_⟩
  · intro j h
    simp [loadInitialState, h]
  · intro j s h
    simp [loadInitialState, h]

/-- Witness for C6 on a parsed non-object value. -/
theorem startup_load_fallback_witness :
    loadInitialState (some Json.other) = defaultState :=
  startup_load_fallback.2.2.1 Json.other rfl

lemma decodeCell_encodeCell (c : Option Marker) : decodeCell (encodeCell c) = some c := by
  rcases c with - | m
  · rfl
  · cases m <;> rfl

lemma decodeAll_map (f : α → Option β) (g : β → α) (l : List β)
    (h : ∀ b ∈ l, f (g b) = some b) : decodeAll f (l.map g) = some l := by
  induction l with
  | nil => rfl
  | cons a as ih =>
    have ha : f (g a) = some a := h a (List.mem_cons_self a as)
    have hrest : decodeAll f (as.map g) = some as :=
      ih (fun b hb => h b (List.mem_cons_of_mem a hb))
    simp [decodeAll, ha, hrest]

lemma decodeSquares_encode (sq : Squares) (h9 : sq.length = 9) :
    decodeSquares (Json.arr (sq.map encodeCell)) = some sq := by
  have hmap : decodeAll decodeCell (sq.map encodeCell) = some sq :=
    decodeAll_map decodeCell encodeCell sq (fun b _ => decodeCell_encodeCell b)
  simp [decodeSquares, hmap, h9]

lemma decodeHistory_encode (hist : List Squares) (h9 : ∀ sq ∈ hist, sq.length = 9) :
    decodeHistory (Json.arr (hist.map fun sq => Json.arr (sq.map encodeCell))) =
      some hist := by
  simp only [decodeHistory]
  exact decodeAll_map decodeSquares (fun sq => Json.arr (sq.map encodeCell)) hist
    (fun sq hsq => decodeSquares_encode sq (h9 sq hsq))

/-- C7: serializing a structurally valid state and validating the parsed
result at startup yields the same state. -/
theorem persist_roundtrip (s : GameState) (hv : isValidGameState s = true) :
    decodeGameState (encodeGameState s) = some s := by
  obtain ⟨hne, h9, hstep⟩ := isValid_parts s hv
  have hdh := decodeHistory_encode s.history h9
  have h1 : List.lookup "history"
      [("history", Json.arr (s.history.map fun sq => Json.arr (sq.map encodeCell))),
       ("currentStep", Json.num (s.currentStep : Int))] =
      some (Json.arr (s.history.map fun sq => Json.arr (sq.map encodeCell))) := rfl
  have h2 : List.lookup "currentStep"
      [("history", Json.arr (s.history.map fun sq => Json.arr (sq.map encodeCell))),
       ("currentStep", Json.num (s.currentStep : Int))] =
      some (Json.num (s.currentStep : Int)) := rfl
  simp only [encodeGameState, decodeGameState, h1, h2, hdh]
  rw [if_neg (by simp [hne]), if_pos ⟨Int.natCast_nonneg _, by exact_mod_cast hstep⟩]
  simp

/-- Witness for C7 at the default state. -/
theorem persist_roundtrip_witness :
    decodeGameState (encodeGameState defaultState) = some defaultState :=
  persist_roundtrip defaultState (by decide)

lemma stepDiffOk_set (a : Squares) (i : Nat) (m : Marker)
    (hi : i < a.length) (hc : a.getD i none = none) :
    stepDiffOk a (a.set i (some m)) = true := by
  simp only [stepDiffOk, List.any_eq_true, List.mem_range, Bool.and_eq_true,
    Bool.or_eq_true, decide_eq_true_eq]
  refine ⟨i, hi, hc, ?_⟩
  cases m
  · exact Or.inl rfl
  · exact Or.inr rfl

lemma histOk_take (l : List Squares) (n : Nat) (h : histOk l = true) :
    histOk (l.take n) = true := by
  induction l generalizing n with
  | nil => simpa using h
  | cons a as ih =>
    cases n with
    | zero => rfl
    | succ m =>
      cases as with
      | nil => cases m <;> rfl
      | cons b bs =>
        cases m with
        | zero => rfl
        | succ k =>
          simp only [histOk, Bool.and_eq_true] at h
          have hrec := ih (k + 1) h.2
          simp only [List.take_succ_cons] at hrec ⊢
          simp [histOk, h.1, hrec]

lemma histOk_concat (l : List Squares) (x : Squares)
    (hl : histOk l = true)
    (hx : ∀ a, l.getLast? = some a → stepDiffOk a x = true) :
    histOk (l ++ [x]) = true := by
  induction l with
  | nil => rfl
  | cons a as ih =>
    cases as with
    | nil =>
      have hax := hx a (by simp)
      simp [histOk, hax]
    | cons b bs =>
      simp only [histOk, Bool.and_eq_true] at hl
      have hrest : histOk ((b :: bs) ++ [x]) = true :=
        ih hl.2 (fun c hc => hx c (by rw [List.getLast?_cons_cons]; exact hc))
      simp only [List.cons_append] at hrest ⊢
      simp [histOk, hl.1, hrest]

lemma selectSquare_histOk (s s2 : GameState) (i : Nat)
    (hinv : inv s = true) (hh : histOk s.history = true)
    (h : selectSquare s i = some s2) : histOk s2.history = true := by
  have hstep : s.currentStep < s.history.length := by
    simp only [inv, Bool.and_eq_true, decide_eq_true_eq] at hinv
    exact hinv.2
  unfold selectSquare at h
  split at h
  · injection h with h2
    subst h2
    exact hh
  · rename_i hguard
    rw [Bool.or_eq_true, not_or] at hguard
    have hcell : (s.history.getD s.currentStep []).getD i none = none := by
      have h2 := hguard.2
      simpa [Option.isSome_iff_ne_none] using h2
    split at h
    · exact absurd h (by simp)
    · rename_i sq harr
      injection h with h2
      subst h2
      unfold arrayWith at harr
      split at harr
      · rename_i hi
        injection harr with harr
        subst harr
        have htake : histOk (s.history.take (s.currentStep + 1)) = true :=
          histOk_take s.history (s.currentStep + 1) hh
        apply histOk_concat _ _ htake
        intro a ha
        have hcur : s.history.take (s.currentStep + 1) =
            s.history.take s.currentStep ++ [s.history.getD s.currentStep []] := by
          rw [List.take_succ, List.getElem?_eq_getElem hstep,
            getD_eq_get s.history s.currentStep [] hstep]
          rfl
        rw [hcur, List.getLast?_concat] at ha
        injection ha with ha
        rw [← ha]
        exact stepDiffOk_set _ i _ hi hcell
      · exact absurd harr (by simp)

/-- C5 counterexample: a persisted blob with two identical empty snapshots is
accepted by the startup validation and becomes the initial state, yet its
history violates the one-cell-difference invariant. -/
theorem persisted_state_breaks_history_invariant :
    decodeGameState twinEmptyJson = some twinEmptyState ∧
    loadInitialState (some twinEmptyJson) = twinEmptyState ∧
    histOk twinEmptyState.history = false :=
  ⟨rfl, rfl, rfl⟩

/-- C5 (amended): every state reachable from the default state through
`selectSquare`, the move-list buttons and `restart` satisfies the
one-cell-difference history invariant; a state accepted from persisted
storage need not, since the validation is only structural. -/
theorem reachable_history_steps_ok (s : GameState) (h : Reachable s) :
    histOk s.history = true := by
  have main : inv s = true ∧ histOk s.history = true := by
    induction h with
    | base => exact ⟨by decide, by decide⟩
    | advance t t2 i ht heq ih =>
      exact ⟨selectSquare_inv t i t2 ih.1 heq, selectSquare_histOk t t2 i ih.1 ih.2 heq⟩
    | jump t step ht hlt ih => exact ⟨jump_inv t step ih.1 hlt, ih.2⟩
    | reset t ht ih =>
      exact ⟨(by decide : inv defaultState = true),
        (by decide : histOk defaultState.history = true)⟩
  exact main.2

/-- Witness for the amended C5 at the default state. -/
theorem reachable_history_steps_ok_witness : histOk defaultState.history = true :=
  reachable_history_steps_ok defaultState Reachable.base
